import Mathlib

/-!
# dup-radar: verification of the issue-triage pipeline

Shallow embedding of the dup-radar Go program (github.com/AobaIwaki123/dup-radar)
and proofs about its triage-pipeline logic.

Modelling conventions:
* Go `float64` values that the pipeline only orders and compares (similarity
  threshold, vector-distance scores, vector components) are modelled as `ℚ`.
* Go `int64` issue identifiers are modelled as `Int`, Go byte payloads as
  `List Nat`.
* Remote calls (Vertex AI embedding, BigQuery read/write, GitHub comment API)
  are modelled by explicit outcome parameters (`Except`), and the pipeline
  functions return the trace of calls they perform, so short-circuiting can be
  stated precisely.
-/

namespace DupRadar

/-! ## TriageDecider: `buildComment`
Embeds `buildComment` from the repository's `main` package
(`src/unnamed/part_004` lines 397-431, identical logic in `src/unnamed/part_003`
lines 260-272).  The Go code:
* returns `""` when `len(ids) == 0`;
* returns `""` when `len(dists) > 0 && dists[0] > cfg.GitHub.Similarity`;
* otherwise writes a header, then for `i, id := range ids` writes one line per
  candidate, breaking as soon as `i >= len(dists) || dists[i] > threshold`,
  and finally writes a fixed attribution footer.
-/

/-- The candidate lines collected by the loop in `buildComment`: it walks `ids`
with the parallel `dists`, stopping (`break`) at the first index that is out of
range of `dists` or whose distance exceeds the threshold. -/
def commentEntries (thr : ℚ) : List Int → List ℚ → List (Int × ℚ)
  | [], _ => []
  | _ :: _, [] => []
  | id :: ids, d :: ds =>
    if thr < d then [] else (id, d) :: commentEntries thr ids ds

/-- Models `fmt.Sprintf("%.3f", q)` for the non-negative distance values the
decider prints (Go's stdlib formatting is outside the repository; rounding-mode
details for ties are immaterial to every claim). -/
def fmt3 (q : ℚ) : String :=
  let m : Int := (q.num * 2000 + q.den) / (q.den * 2)
  let i := m / 1000
  let f := (m % 1000).toNat
  toString i ++ "." ++ (if f < 10 then "00" else if f < 100 then "0" else "") ++ toString f

/-- One candidate line: `fmt.Sprintf("* #%d (距離 %.3f)\n", id, dists[i])`. -/
def commentLine (p : Int × ℚ) : String :=
  "* #" ++ toString p.1 ++ " (距離 " ++ fmt3 p.2 ++ ")\n"

def commentHeader : String := "### 🤖 類似 Issue 候補\n\n"

def commentFooter : String := "\n_Comment generated by DupRadar_\n"

/-- The decider `buildComment` (TriageDecider): threshold plus ranked (ids, dists) to an
optional comment text, `""` meaning "no comment". -/
def buildComment (thr : ℚ) (ids : List Int) (dists : List ℚ) : String :=
  if ids.length = 0 then ""
  else
    let body := commentHeader
      ++ String.join ((commentEntries thr ids dists).map commentLine)
      ++ commentFooter
    match dists with
    | d :: _ => if thr < d then "" else body
    | [] => body

/-! ### Helper lemmas about the decider -/

theorem commentEntries_eq_takeWhile (thr : ℚ) :
    ∀ (ids : List Int) (dists : List ℚ),
      commentEntries thr ids dists
        = (ids.zip dists).takeWhile (fun p => p.2 ≤ thr) := by
  intro ids
  induction ids with
  | nil => intro dists; rfl
  | cons id ids ih =>
    intro dists
    cases dists with
    | nil => rfl
    | cons d ds =>
      by_cases h : d ≤ thr
      · have hlt : ¬ thr < d := not_lt.mpr h
        simp [commentEntries, hlt, List.zip_cons_cons, List.takeWhile_cons, h, ih]
      · have hlt : thr < d := not_le.mp h
        simp [commentEntries, hlt, List.zip_cons_cons, List.takeWhile_cons, h]

theorem mem_commentEntries_le (thr : ℚ) (ids : List Int) (dists : List ℚ) :
    ∀ p ∈ commentEntries thr ids dists, p.2 ≤ thr := by
  intro p hp
  rw [commentEntries_eq_takeWhile] at hp
  have := List.mem_takeWhile_imp hp
  simpa using this

theorem next_after_commentEntries (thr : ℚ) :
    ∀ (ids : List Int) (dists : List ℚ) (q : Int × ℚ),
      (ids.zip dists)[(commentEntries thr ids dists).length]? = some q → thr < q.2 := by
  intro ids
  induction ids with
  | nil => intro dists q h; simp [List.zip] at h
  | cons id ids ih =>
    intro dists q h
    cases dists with
    | nil => simp [List.zip] at h
    | cons d ds =>
      by_cases hd : thr < d
      · simp only [commentEntries, if_pos hd, List.length_nil, List.zip_cons_cons,
          List.getElem?_cons_zero, Option.some.injEq] at h
        subst h
        exact hd
      · simp only [commentEntries, if_neg hd, List.zip_cons_cons,
          List.length_cons, List.getElem?_cons_succ] at h
        exact ih ds q h

theorem string_append_ne_empty (s t : String) (h : s ≠ "") : s ++ t ≠ "" := by
  cases s with
  | mk a =>
    cases t with
    | mk b =>
      intro heq
      have hdata : a ++ b = [] := congrArg String.data heq
      have ha : a = [] := (List.append_eq_nil.mp hdata).1
      exact h (by simp [ha])

theorem buildComment_body_ne_empty (thr : ℚ) (ids : List Int) (dists : List ℚ) :
    commentHeader ++ String.join ((commentEntries thr ids dists).map commentLine)
      ++ commentFooter ≠ "" := by
  apply string_append_ne_empty
  apply string_append_ne_empty
  decide

/-- Claim C1. For every candidate list `(ids, dists)` of matching lengths, sorted
ascending by distance, and every threshold: `buildComment` produces a comment
(non-empty text) iff the list is non-empty and its first (smallest) distance is
≤ the threshold; the candidates enumerated in the comment are exactly the
longest contiguous prefix whose distances are all ≤ the threshold — every
enumerated candidate satisfies the threshold and the loop stops at the first
violation rather than filtering past it. -/
theorem buildComment_threshold_semantics (thr : ℚ) (ids : List Int) (dists : List ℚ)
    (hlen : ids.length = dists.length)
    (hsorted : dists.Sorted (· ≤ ·)) :
    (buildComment thr ids dists ≠ "" ↔ ∃ d, dists.head? = some d ∧ d ≤ thr)
    ∧ commentEntries thr ids dists = (ids.zip dists).takeWhile (fun p => p.2 ≤ thr)
    ∧ (∀ p ∈ commentEntries thr ids dists, p.2 ≤ thr)
    ∧ (∀ q : Int × ℚ,
        (ids.zip dists)[(commentEntries thr ids dists).length]? = some q → thr < q.2) := by
  refine ⟨?_, commentEntries_eq_takeWhile thr ids dists,
    mem_commentEntries_le thr ids dists,
    fun q hq => next_after_commentEntries thr ids dists q hq⟩
  cases ids with
  | nil =>
    have hd : dists = [] := List.length_eq_zero.mp hlen.symm
    subst hd
    simp [buildComment]
  | cons id ids =>
    cases dists with
    | nil => simp at hlen
    | cons d ds =>
      by_cases hd : thr < d
      · simp only [buildComment, if_pos hd, List.length_cons, List.head?_cons]
        constructor
        · intro h; simp at h
        · rintro ⟨d', hd', hle⟩
          cases hd'
          exact absurd hle (not_le.mpr hd)
      · simp only [buildComment, if_neg hd, List.length_cons, List.head?_cons]
        constructor
        · intro _; exact ⟨d, rfl, not_lt.mp hd⟩
        · intro _
          simpa using buildComment_body_ne_empty thr (id :: ids) (d :: ds)

theorem buildComment_threshold_semantics_witness :
    commentEntries (1/5) [10, 11, 12] [1/20, 9/50, 1/4]
      = (([10, 11, 12] : List Int).zip [(1 : ℚ)/20, 9/50, 1/4]).takeWhile
          (fun p => p.2 ≤ 1/5) :=
  (buildComment_threshold_semantics (1/5) [10, 11, 12] [1/20, 9/50, 1/4]
    rfl (by norm_num [List.sorted_cons])).2.1

/-- Claim C8. The spec's worked examples at threshold 0.20: on candidates
`[(#10, 0.05), (#11, 0.18), (#12, 0.25)]` the decider returns a comment that
lists #10 and #11 and omits #12; on the single candidate `[(#5, 0.30)]` it
returns no comment (the empty string). -/
theorem buildComment_worked_examples :
    buildComment (1/5) [10, 11, 12] [1/20, 9/50, 1/4] ≠ ""
    ∧ (commentEntries (1/5) [10, 11, 12] [1/20, 9/50, 1/4]).map Prod.fst = [10, 11]
    ∧ buildComment (1/5) [5] [3/10] = "" := by
  have e1 : ¬ ((1 : ℚ)/5 < 1/20) := by norm_num
  have e2 : ¬ ((1 : ℚ)/5 < 9/50) := by norm_num
  have e3 : ((1 : ℚ)/5 < 1/4) := by norm_num
  have e4 : ((1 : ℚ)/5 < 3/10) := by norm_num
  refine ⟨?_, ?_, ?_⟩
  · simp only [buildComment, if_neg e1, List.length_cons]
    simpa using buildComment_body_ne_empty (1/5) [10, 11, 12] [1/20, 9/50, 1/4]
  · norm_num [commentEntries]
  · norm_num [buildComment]

/-! ## SimilaritySearcher: `SearchSimilarIssues`
Embeds `SearchSimilarIssues` from `src/internal/storage/bigquery.go` (lines
34-80).  The remote query is modelled by its outcome: `q.Read` either fails, or
yields an iterator that delivers a list of rows and then terminates with
`iterator.Done` (`none`) or with an error (`some e`).  The Go loop appends
`row.IssueID` / `row.Dist` pairwise; on `q.Read` failure or an iterator error
it returns `nil, nil, err` (accumulated slices discarded). -/

/-- One result row of the vector-search query: `(issue_id, dist)`. -/
structure SearchRow where
  issueId : Int
  dist : ℚ
  deriving DecidableEq

/-- Outcome of `q.Read` and the subsequent iteration: an upfront read error, or
the rows delivered before the iterator terminated, paired with `none` for
`iterator.Done` or `some e` for an iterator error. -/
def SearchOutcome := Except String (List SearchRow × Option String)

/-- The result-accumulation loop of `SearchSimilarIssues`. -/
def searchLoop : List SearchRow → Option String → List Int → List ℚ →
    List Int × List ℚ × Option String
  | [], none, ids, dists => (ids, dists, none)
  | [], some e, _, _ => ([], [], some e)
  | r :: rs, fin, ids, dists => searchLoop rs fin (ids ++ [r.issueId]) (dists ++ [r.dist])

/-- The search `SearchSimilarIssues`: returns `(ids, dists, err)`, where the `nil` Go
slices of the error paths are the empty lists. -/
def searchSimilarIssues (res : SearchOutcome) : List Int × List ℚ × Option String :=
  match res with
  | .error e => ([], [], some e)
  | .ok (rows, fin) => searchLoop rows fin [] []

theorem searchLoop_closed_form :
    ∀ (rows : List SearchRow) (fin : Option String) (ids : List Int) (dists : List ℚ),
      searchLoop rows fin ids dists
        = match fin with
          | some e => ([], [], some e)
          | none => (ids ++ rows.map SearchRow.issueId, dists ++ rows.map SearchRow.dist, none) := by
  intro rows
  induction rows with
  | nil =>
    intro fin ids dists
    cases fin <;> simp [searchLoop]
  | cons r rs ih =>
    intro fin ids dists
    cases fin <;> simp [searchLoop, ih]

/-- Claim C9. For every outcome of the query/iterator, `SearchSimilarIssues`
either returns an error with both result lists nil (empty), or returns the two
lists obtained by taking `issue_id` and `dist` pairwise from the delivered rows
in iteration order; in particular both lists always have equal length and the
id at position `i` comes from the same row as the distance at position `i`. -/
theorem searchSimilarIssues_pairing (res : SearchOutcome) :
    searchSimilarIssues res
      = (match res with
         | .error e => ([], [], some e)
         | .ok (_, some e) => ([], [], some e)
         | .ok (rows, none) => (rows.map SearchRow.issueId, rows.map SearchRow.dist, none))
    ∧ (searchSimilarIssues res).1.length = (searchSimilarIssues res).2.1.length := by
  have hmain : searchSimilarIssues res
      = (match res with
         | .error e => ([], [], some e)
         | .ok (_, some e) => ([], [], some e)
         | .ok (rows, none) => (rows.map SearchRow.issueId, rows.map SearchRow.dist, none)) := by
    cases res with
    | error e => rfl
    | ok p =>
      obtain ⟨rows, fin⟩ := p
      cases fin <;> simp [searchSimilarIssues, searchLoop_closed_form]
  refine ⟨hmain, ?_⟩
  rw [hmain]
  cases res with
  | error e => rfl
  | ok p =>
    obtain ⟨rows, fin⟩ := p
    cases fin <;> simp

/-! ## EmbeddingClient: `CreateEmbedding` / `CreateEmbeddingWithOptions`
Embeds the pure response-extraction logic of
`src/internal/embedding/embedding.go`.  The decoded Vertex AI response
(`embedResp`) carries, per prediction, the vector values and the statistics
`token_count` / `truncated`.  `CreateEmbeddingWithOptions` (lines 88-158) fails
on an empty prediction list and otherwise returns an `EmbeddingResult` holding
the first prediction's values, token count, and truncation flag.
`CreateEmbedding` (lines 79-85) calls it and returns only `result.Embedding` —
this is the function the pipeline invokes (`webhook.go` line 127). -/

structure EmbedStatistics where
  tokenCount : Int
  truncated : Bool
  deriving DecidableEq

/-- One decoded prediction (`predictions[i].embeddings`). -/
structure EmbedPrediction where
  values : List ℚ
  statistics : EmbedStatistics
  deriving DecidableEq

/-- The decoded Vertex AI response body (`embedResp`). -/
structure EmbedResp where
  predictions : List EmbedPrediction
  deriving DecidableEq

/-- Result record `EmbeddingResult` — vector plus metadata. -/
structure EmbeddingResult where
  embedding : List ℚ
  tokenCount : Int
  truncated : Bool
  deriving DecidableEq

/-- Extraction step of `CreateEmbeddingWithOptions` applied to a decoded
response: error on an empty predictions array, otherwise the first
prediction's values and statistics. -/
def createEmbeddingWithOptionsOf (out : EmbedResp) : Except String EmbeddingResult :=
  match out.predictions with
  | [] => .error "vertex api: empty predictions"
  | p :: _ => .ok ⟨p.values, p.statistics.tokenCount, p.statistics.truncated⟩

/-- Extraction step of `CreateEmbedding`: delegates to
`CreateEmbeddingWithOptions` and returns only `result.Embedding`. -/
def createEmbeddingOf (out : EmbedResp) : Except String (List ℚ) :=
  match createEmbeddingWithOptionsOf out with
  | .error e => .error e
  | .ok result => .ok result.embedding

/-- Claim C6, counterexample. Two well-formed provider responses that differ
only in the truncation flag produce identical `CreateEmbedding` results: the
embedding operation used by the pipeline does NOT surface the truncation flag
to its caller — the caller cannot observe whether the text was truncated. -/
theorem createEmbedding_drops_truncation :
    createEmbeddingOf ⟨[⟨[1, 2], ⟨5, true⟩⟩]⟩ = createEmbeddingOf ⟨[⟨[1, 2], ⟨5, false⟩⟩]⟩
    ∧ (⟨[⟨[1, 2], ⟨5, true⟩⟩]⟩ : EmbedResp).predictions.head?.map
        (fun p => p.statistics.truncated)
      ≠ (⟨[⟨[1, 2], ⟨5, false⟩⟩]⟩ : EmbedResp).predictions.head?.map
        (fun p => p.statistics.truncated) := by
  constructor
  · rfl
  · simp

/-- Claim C6, amended. `CreateEmbeddingWithOptions` surfaces the truncation
flag: its result carries exactly the first prediction's `truncated` statistic
(and it errors only on an empty prediction list); but `CreateEmbedding` — the
wrapper the pipeline actually calls — forwards only the embedding vector and
drops the flag. -/
theorem createEmbeddingWithOptions_surfaces_truncation (out : EmbedResp) :
    (match createEmbeddingWithOptionsOf out with
      | .error e => Except.error e
      | .ok r => Except.ok r.truncated)
      = (match out.predictions with
         | [] => Except.error "vertex api: empty predictions"
         | p :: _ => Except.ok p.statistics.truncated)
    ∧ createEmbeddingOf out
      = (match createEmbeddingWithOptionsOf out with
         | .error e => Except.error e
         | .ok r => Except.ok r.embedding) := by
  cases out with
  | mk preds =>
    cases preds with
    | nil => exact ⟨rfl, rfl⟩
    | cons p ps => exact ⟨rfl, rfl⟩

/-! ## Webhook intake: `HandleWebhook`
Embeds `(*Handler).HandleWebhook` from `src/internal/webhook/webhook.go`
(lines 41-112).  External effects are modelled by their outcomes:
* `io.ReadAll` of the (size-limited) body: `Except Unit (List Nat)`;
* the HMAC computation `hex(hmac_sha256(signingKey, payload))` (Go stdlib):
  the function `macHex` of the environment;
* `github.ParseWebHook(eventType, payload)`: the function `parseWebHook` of
  the environment, returning either a parse error, an issues event with its
  action, or some other event type.
The handler returns the HTTP status it writes and the issues event it hands to
`go h.handleIssue` (if any). -/

/-- Issue data the pipeline reads from a parsed issues event. -/
structure IssueData where
  number : Int
  title : String
  body : String
  deriving DecidableEq

/-- Repository data the pipeline reads from a parsed issues event. -/
structure RepoData where
  owner : String
  name : String
  fullName : String
  deriving DecidableEq

/-- A value returned by `github.ParseWebHook`: the handler only distinguishes
`*github.IssuesEvent` (with its action) from every other event type. -/
inductive GoEvent where
  | issues (action : String) (issue : IssueData) (repo : RepoData)
  | other
  deriving DecidableEq

/-- An inbound HTTP request as the handler observes it. -/
structure WebhookRequest where
  method : String
  /-- outcome of `io.ReadAll(io.LimitReader(r.Body, 5MB))` -/
  body : Except Unit (List Nat)
  /-- the `X-Hub-Signature-256` header (`""` when missing) -/
  sigHeader : String
  /-- the `X-GitHub-Event` header read by `github.WebHookType` -/
  eventHeader : String

/-- Environment of the intake handler: the HMAC of the signing key over a
payload (hex-encoded), and the webhook parser. -/
structure IntakeEnv where
  macHex : List Nat → String
  parseWebHook : String → List Nat → Except Unit GoEvent

/-- Go `strings.TrimPrefix(s, pre)`: drops `pre` when it is a prefix of `s`,
otherwise returns `s` unchanged.  Go trims `len(pre)` bytes; this is modelled
on the character list, which coincides for the ASCII prefix `"sha256="`. -/
def trimPrefix (s pre : String) : String :=
  if pre.data.isPrefixOf s.data then String.mk (s.data.drop pre.data.length) else s

/-- The handler `HandleWebhook`: returns the HTTP status written to the response and the
issues event dispatched to the background pipeline (`none` when no goroutine
is started).  Mirrors `webhook.go` lines 41-112: 405 on non-POST, 400 on a
body read failure, 401 on an empty signature (after trimming `sha256=`), 401
on an HMAC mismatch (`hmac.Equal` of the two hex strings), 400 on a parse
failure, and otherwise 202 — dispatching the pipeline only for an issues
event whose action is `"opened"`. -/
def handleWebhook (env : IntakeEnv) (req : WebhookRequest) : Nat × Option GoEvent :=
  if req.method ≠ "POST" then (405, none)
  else
    match req.body with
    | .error _ => (400, none)
    | .ok payload =>
      let sig := trimPrefix req.sigHeader "sha256="
      if sig = "" then (401, none)
      else if sig ≠ env.macHex payload then (401, none)
      else
        match env.parseWebHook req.eventHeader payload with
        | .error _ => (400, none)
        | .ok event =>
          match event with
          | GoEvent.issues action issue repo =>
            if action = "opened" then (202, some (GoEvent.issues action issue repo))
            else (202, none)
          | GoEvent.other => (202, none)

/-! ## PipelineCoordinator: `handleIssue`
Embeds `(*Handler).handleIssue` from `src/internal/webhook/webhook.go` (lines
115-168) as the trace of remote calls it performs.  Outcomes of the remote
calls are inputs (`PipeEnv`); the comment text is computed by the embedded
decider (`buildComment` above — the source of `internal/github`'s
`BuildSimilarIssuesComment` is absent from the repository, and `buildComment`
of `src/unnamed/part_003`/`part_004` is its in-repo implementation, invoked
with the same `(threshold, ids, dists)` arguments). -/

/-- One remote call made by the pipeline. -/
inductive PipeCall where
  | embed (text : String)
  | search (topK : Nat)
  | comment (owner name : String) (number : Int) (msg : String)
  | insert (repoFullName : String) (number : Int)
  deriving DecidableEq

/-- Environment of one pipeline run: configuration plus outcomes of the three
remote dependencies. -/
structure PipeEnv where
  similarity : ℚ
  topK : Nat
  /-- outcome of `embedding.CreateEmbedding` on the given text -/
  embedResult : String → Except Unit (List ℚ)
  /-- outcome of `SearchSimilarIssues` (error, or ids and dists) -/
  searchResult : Except Unit (List Int × List ℚ)
  /-- outcome of `CreateIssueComment` -/
  commentResult : Except Unit Unit
  /-- outcome of `InsertIssueVector` -/
  insertResult : Except Unit Unit

/-- The coordinator `handleIssue`: the sequence of remote calls performed for one issues
event.  On an embedding error it returns immediately after the embed call; on
a search error it proceeds with `nil, nil` candidates (the error-path return
value of `SearchSimilarIssues`); the comment call happens only when
`buildComment` returns non-empty text; the insert is then attempted
unconditionally, whatever the comment outcome was. -/
def handleIssuePipeline (env : PipeEnv) (issue : IssueData) (repo : RepoData) : List PipeCall :=
  let text := issue.title ++ "\n" ++ issue.body
  match env.embedResult text with
  | .error _ => [PipeCall.embed text]
  | .ok _vec =>
    let idsDists := match env.searchResult with
      | .error _ => (([] : List Int), ([] : List ℚ))
      | .ok r => r
    let afterSearch := [PipeCall.embed text, PipeCall.search env.topK]
    let msg := buildComment env.similarity idsDists.1 idsDists.2
    let afterComment :=
      if msg ≠ "" then
        afterSearch ++ [PipeCall.comment repo.owner repo.name issue.number msg]
      else afterSearch
    afterComment ++ [PipeCall.insert repo.fullName issue.number]

/-- All remote pipeline calls triggered by one inbound request: `handleIssue`
runs exactly when `HandleWebhook` dispatched an issues event to a goroutine. -/
def webhookPipelineCalls (env : IntakeEnv) (penv : PipeEnv) (req : WebhookRequest) :
    List PipeCall :=
  match (handleWebhook env req).2 with
  | some (GoEvent.issues _ issue repo) => handleIssuePipeline penv issue repo
  | _ => []

/-- Claim C3. Status codes of the webhook handler: 405 on any non-POST method;
400 when the body cannot be read; 401 when the signature (after trimming the
`sha256=` prefix) is empty — an empty/missing signature is always invalid,
never a skip of verification; 401 when it does not match the computed HMAC;
400 when the body fails to parse; and 202 whenever the signature verifies and
the body parses, whatever kind of event it is (the status is written before
any background work, so later background failures cannot change it). -/
theorem handleWebhook_status_codes (env : IntakeEnv) (req : WebhookRequest) :
    (req.method ≠ "POST" → (handleWebhook env req).1 = 405)
    ∧ (req.method = "POST" → ∀ e, req.body = Except.error e →
        (handleWebhook env req).1 = 400)
    ∧ (req.method = "POST" → ∀ payload, req.body = Except.ok payload →
        trimPrefix req.sigHeader "sha256=" = "" →
        (handleWebhook env req).1 = 401)
    ∧ (req.method = "POST" → ∀ payload, req.body = Except.ok payload →
        trimPrefix req.sigHeader "sha256=" ≠ "" →
        trimPrefix req.sigHeader "sha256=" ≠ env.macHex payload →
        (handleWebhook env req).1 = 401)
    ∧ (req.method = "POST" → ∀ payload, req.body = Except.ok payload →
        trimPrefix req.sigHeader "sha256=" ≠ "" →
        trimPrefix req.sigHeader "sha256=" = env.macHex payload →
        ∀ e, env.parseWebHook req.eventHeader payload = Except.error e →
        (handleWebhook env req).1 = 400)
    ∧ (req.method = "POST" → ∀ payload, req.body = Except.ok payload →
        trimPrefix req.sigHeader "sha256=" ≠ "" →
        trimPrefix req.sigHeader "sha256=" = env.macHex payload →
        ∀ ev, env.parseWebHook req.eventHeader payload = Except.ok ev →
        (handleWebhook env req).1 = 202) := by
  refine ⟨?_, ?_, ?_, ?_, ?_, ?_⟩
  · intro hm
    simp [handleWebhook, hm]
  · intro hm e hb
    simp [handleWebhook, hm, hb]
  · intro hm payload hb hsig
    simp [handleWebhook, hm, hb, hsig]
  · intro hm payload hb hsig hne
    simp [handleWebhook, hm, hb, hsig, hne]
  · intro hm payload hb hsig heq e hp
    have hsig' : env.macHex payload ≠ "" := heq ▸ hsig
    simp [handleWebhook, hm, hb, hsig, hsig', heq, hp]
  · intro hm payload hb hsig heq ev hp
    have hsig' : env.macHex payload ≠ "" := heq ▸ hsig
    cases ev with
    | issues action issue repo =>
      by_cases ha : action = "opened" <;>
        simp [handleWebhook, hm, hb, hsig, hsig', heq, hp, ha]
    | other =>
      simp [handleWebhook, hm, hb, hsig, hsig', heq, hp]

/-- Sample intake environment used by the intake witnesses. -/
def sampleIntakeEnv : IntakeEnv where
  macHex := fun _ => "abc"
  parseWebHook := fun _ _ => Except.ok GoEvent.other

/-- Sample irrelevant-event request used by the intake witnesses. -/
def sampleRequest : WebhookRequest where
  method := "POST"
  body := Except.ok [1, 2]
  sigHeader := "sha256=abc"
  eventHeader := "push"

theorem handleWebhook_status_codes_witness :
    (handleWebhook sampleIntakeEnv sampleRequest).1 = 202 :=
  (handleWebhook_status_codes sampleIntakeEnv sampleRequest).2.2.2.2.2
    rfl [1, 2] rfl (by decide) (by decide) GoEvent.other rfl

/-- Sample pipeline environment whose search outcome is an error. -/
def sampleFailSearchEnv : PipeEnv where
  similarity := 1/5
  topK := 3
  embedResult := fun _ => Except.ok [1, 2]
  searchResult := Except.error ()
  commentResult := Except.ok ()
  insertResult := Except.ok ()

/-- Sample pipeline environment whose embedding outcome is an error. -/
def sampleFailEmbedEnv : PipeEnv where
  similarity := 1/5
  topK := 3
  embedResult := fun _ => Except.error ()
  searchResult := Except.ok ([], [])
  commentResult := Except.ok ()
  insertResult := Except.ok ()

/-- Sample issue processed by the pipeline witnesses. -/
def sampleIssue : IssueData where
  number := 7
  title := "t"
  body := "b"

/-- Sample repository processed by the pipeline witnesses. -/
def sampleRepo : RepoData where
  owner := "o"
  name := "r"
  fullName := "o/r"

/-- Claim C7. For every verified, well-formed inbound event that is not an
issues event, or is an issues event whose action is not `"opened"`, the
handler dispatches no background work: no embedding, search, comment, or
persistence call is ever invoked for that event, and the HTTP caller is still
acknowledged with 202. -/
theorem handleWebhook_irrelevant_event_noop (env : IntakeEnv) (penv : PipeEnv)
    (req : WebhookRequest)
    (hm : req.method = "POST")
    (payload : List Nat) (hb : req.body = Except.ok payload)
    (hsig : trimPrefix req.sigHeader "sha256=" ≠ "")
    (heq : trimPrefix req.sigHeader "sha256=" = env.macHex payload)
    (ev : GoEvent) (hp : env.parseWebHook req.eventHeader payload = Except.ok ev)
    (hirr : ∀ a i r, ev = GoEvent.issues a i r → a ≠ "opened") :
    handleWebhook env req = (202, none)
    ∧ webhookPipelineCalls env penv req = [] := by
  have hsig' : env.macHex payload ≠ "" := heq ▸ hsig
  have hmain : handleWebhook env req = (202, none) := by
    cases ev with
    | issues action issue repo =>
      have ha : action ≠ "opened" := hirr action issue repo rfl
      simp [handleWebhook, hm, hb, hsig, hsig', heq, hp, ha]
    | other =>
      simp [handleWebhook, hm, hb, hsig, hsig', heq, hp]
  exact ⟨hmain, by simp [webhookPipelineCalls, hmain]⟩

theorem handleWebhook_irrelevant_event_noop_witness :
    handleWebhook sampleIntakeEnv sampleRequest = (202, none)
    ∧ webhookPipelineCalls sampleIntakeEnv sampleFailSearchEnv sampleRequest = [] :=
  handleWebhook_irrelevant_event_noop sampleIntakeEnv sampleFailSearchEnv sampleRequest
    rfl [1, 2] rfl (by decide) (by decide) GoEvent.other rfl
    (fun a i r h => by cases h)

/-- Claim C4. When the embedding call fails, the pipeline run halts immediately:
its call trace is exactly the embed call — the similarity search, the
comment-posting call, and the fingerprint-persistence call are never invoked
for that event. -/
theorem handleIssue_embed_failure_halts (env : PipeEnv) (issue : IssueData)
    (repo : RepoData)
    (he : env.embedResult (issue.title ++ "\n" ++ issue.body) = Except.error ()) :
    handleIssuePipeline env issue repo
      = [PipeCall.embed (issue.title ++ "\n" ++ issue.body)]
    ∧ (∀ k, PipeCall.search k ∉ handleIssuePipeline env issue repo)
    ∧ (∀ o n num m, PipeCall.comment o n num m ∉ handleIssuePipeline env issue repo)
    ∧ (∀ rf num, PipeCall.insert rf num ∉ handleIssuePipeline env issue repo) := by
  have hmain : handleIssuePipeline env issue repo
      = [PipeCall.embed (issue.title ++ "\n" ++ issue.body)] := by
    simp [handleIssuePipeline, he]
  refine ⟨hmain, ?_, ?_, ?_⟩ <;> intros <;> simp [hmain]

theorem handleIssue_embed_failure_halts_witness :
    handleIssuePipeline sampleFailEmbedEnv sampleIssue sampleRepo
      = [PipeCall.embed (sampleIssue.title ++ "\n" ++ sampleIssue.body)] :=
  (handleIssue_embed_failure_halts sampleFailEmbedEnv sampleIssue sampleRepo rfl).1

/-- Claim C5. When the embedding succeeds but the similarity search fails, the
run continues: the search's error-path result is the empty candidate list
(`nil, nil`), `buildComment` on it is empty so no comment is posted, and the
fingerprint-persistence call is still invoked — the trace is exactly
embed, search, insert. -/
theorem handleIssue_search_failure_continues (env : PipeEnv) (issue : IssueData)
    (repo : RepoData) (vec : List ℚ)
    (he : env.embedResult (issue.title ++ "\n" ++ issue.body) = Except.ok vec)
    (hs : env.searchResult = Except.error ()) :
    handleIssuePipeline env issue repo
      = [PipeCall.embed (issue.title ++ "\n" ++ issue.body),
         PipeCall.search env.topK,
         PipeCall.insert repo.fullName issue.number]
    ∧ (∀ o n num m, PipeCall.comment o n num m ∉ handleIssuePipeline env issue repo)
    ∧ PipeCall.insert repo.fullName issue.number ∈ handleIssuePipeline env issue repo := by
  have hempty : buildComment env.similarity ([] : List Int) ([] : List ℚ) = "" := rfl
  have hmain : handleIssuePipeline env issue repo
      = [PipeCall.embed (issue.title ++ "\n" ++ issue.body),
         PipeCall.search env.topK,
         PipeCall.insert repo.fullName issue.number] := by
    simp [handleIssuePipeline, he, hs, hempty]
  refine ⟨hmain, ?_, by simp [hmain]⟩
  intros o n num m
  simp [hmain]

theorem handleIssue_search_failure_continues_witness :
    handleIssuePipeline sampleFailSearchEnv sampleIssue sampleRepo
      = [PipeCall.embed (sampleIssue.title ++ "\n" ++ sampleIssue.body),
         PipeCall.search sampleFailSearchEnv.topK,
         PipeCall.insert sampleRepo.fullName sampleIssue.number] :=
  (handleIssue_search_failure_continues sampleFailSearchEnv sampleIssue sampleRepo
    [1, 2] rfl rfl).1

/-! ## triage: `AnalyzeSimilarity`
Embeds the word counting of `AnalyzeSimilarity` from
`src/internal/triage/analyzer.go` (lines 9-24).  `strings.Fields` splits on
runs of whitespace (the ASCII fragment of `unicode.IsSpace` suffices for the
claims); `strings.EqualFold` is modelled as equality after simple case
folding (ASCII letter folding, which the claims exercise); `commonWords`
counts the matching PAIRS of the two nested `range` loops. -/

/-- ASCII whitespace recognized by `strings.Fields`. -/
def isGoSpace (c : Char) : Bool :=
  c = ' ' || c = '\t' || c = '\n' || c = '\x0b' || c = '\x0c' || c = '\r'

/-- Accumulating splitter behind `strings.Fields`. -/
def fieldsAux : List Char → List Char → List (List Char)
  | [], acc => if acc = [] then [] else [acc.reverse]
  | c :: cs, acc =>
    if isGoSpace c then
      if acc = [] then fieldsAux cs [] else acc.reverse :: fieldsAux cs []
    else fieldsAux cs (c :: acc)

/-- Go `strings.Fields`: the whitespace-separated words of a string. -/
def goFields (s : String) : List (List Char) := fieldsAux s.data []

/-- Simple case folding of one character (ASCII uppercase to lowercase). -/
def foldChar (c : Char) : Char :=
  if 'A' ≤ c && c ≤ 'Z' then Char.ofNat (c.toNat + 32) else c

/-- Go `strings.EqualFold` on two words: equality under case folding. -/
def equalFold (w1 w2 : List Char) : Bool :=
  decide (w1.map foldChar = w2.map foldChar)

/-- The `commonWords` counter of `AnalyzeSimilarity`: both loops are nested,
so every matching (word1, word2) PAIR is counted. -/
def commonWords (ws1 ws2 : List (List Char)) : Nat :=
  ws1.foldl (fun acc w1 => acc + ws2.countP (fun w2 => equalFold w1 w2)) 0

/-- The divisor `len(words1) + len(words2) - commonWords` of the final
division in `AnalyzeSimilarity` (Go evaluates it in `int`). -/
def analyzeDivisor (s1 s2 : String) : Int :=
  ((goFields s1).length : Int) + ((goFields s2).length : Int)
    - (commonWords (goFields s1) (goFields s2) : Int)

theorem equalFold_symm (a b : List Char) : equalFold a b = equalFold b a := by
  rw [equalFold, equalFold]
  exact decide_eq_decide.mpr eq_comm

theorem foldl_add_shift {α : Type} (f : α → Nat) :
    ∀ (ws : List α) (a : Nat),
      ws.foldl (fun acc w => acc + f w) a = a + ws.foldl (fun acc w => acc + f w) 0 := by
  intro ws
  induction ws with
  | nil => intro a; simp
  | cons w ws ih =>
    intro a
    simp only [List.foldl_cons]
    rw [ih (a + f w), ih (0 + f w)]
    omega

theorem commonWords_cons (w : List Char) (ws1 ws2 : List (List Char)) :
    commonWords (w :: ws1) ws2
      = ws2.countP (fun w2 => equalFold w w2) + commonWords ws1 ws2 := by
  simp only [commonWords, List.foldl_cons]
  rw [foldl_add_shift]
  omega

theorem commonWords_nil_right : ∀ ws1 : List (List Char), commonWords ws1 [] = 0 := by
  intro ws1
  induction ws1 with
  | nil => rfl
  | cons w ws ih => rw [commonWords_cons, ih]; simp

theorem commonWords_comm : ∀ ws1 ws2 : List (List Char),
    commonWords ws1 ws2 = commonWords ws2 ws1 := by
  intro ws1
  induction ws1 with
  | nil => intro ws2; rw [commonWords_nil_right]; rfl
  | cons w ws1 ih =>
    intro ws2
    rw [commonWords_cons, ih]
    have hexp : commonWords ws2 (w :: ws1)
        = commonWords ws2 ws1 + ws2.countP (fun w2 => equalFold w2 w) := by
      induction ws2 with
      | nil => simp [commonWords_nil_right, commonWords]
      | cons v vs ihv =>
        rw [commonWords_cons, commonWords_cons, ihv, List.countP_cons,
          List.countP_cons]
        omega
    rw [hexp]
    have hsymm : ws2.countP (fun w2 => equalFold w2 w)
        = ws2.countP (fun w2 => equalFold w w2) := by
      apply List.countP_congr
      intro w2 _
      rw [equalFold_symm]
    omega

theorem countP_le_one_of_pairwise_not_fold (w : List Char) :
    ∀ ws : List (List Char),
      ws.Pairwise (fun a b => equalFold a b = false) →
      ws.countP (fun v => equalFold w v) ≤ 1 := by
  intro ws
  induction ws with
  | nil => intro _; simp
  | cons v vs ih =>
    intro hp
    rw [List.pairwise_cons] at hp
    rw [List.countP_cons]
    by_cases hv : equalFold w v = true
    · have hzero : vs.countP (fun u => equalFold w u) = 0 := by
        rw [List.countP_eq_zero]
        intro u hu
        intro habs
        have hwv : w.map foldChar = v.map foldChar := of_decide_eq_true hv
        have hwu : w.map foldChar = u.map foldChar := of_decide_eq_true habs
        have : equalFold v u = true := decide_eq_true (hwv ▸ hwu)
        rw [hp.1 u hu] at this
        exact Bool.false_ne_true this
      rw [hzero]
      simp [hv]
    · rw [Bool.not_eq_true] at hv
      rw [hv]
      simp only [Bool.false_eq_true, if_false]
      have := ih hp.2
      omega

theorem commonWords_le_length_left (ws1 ws2 : List (List Char))
    (hp : ws2.Pairwise (fun a b => equalFold a b = false)) :
    commonWords ws1 ws2 ≤ ws1.length := by
  induction ws1 with
  | nil => simp [commonWords]
  | cons w ws ih =>
    rw [commonWords_cons]
    have h1 := countP_le_one_of_pairwise_not_fold w ws2 hp
    simp only [List.length_cons]
    omega

/-- Claim C10, counterexample. The input pair `("a a", "a a")`: both strings
contain whitespace-separated words, yet the divisor of `AnalyzeSimilarity`
is 2 + 2 − 4 = 0, not positive — the nested loops count every matching pair,
so repeated words drive the unguarded divisor to zero. -/
theorem analyzeDivisor_zero_with_words :
    goFields "a a" ≠ [] ∧ analyzeDivisor "a a" "a a" = 0 := by
  constructor
  · decide
  · decide

/-- Claim C10, amended. If at least one of the two strings has pairwise
case-fold-distinct words (no repeated word up to case), then the divisor
`len(words1) + len(words2) - commonWords` is positive whenever at least one
string contains a word; and when both strings contain no words the divisor is
zero, leaving the division unguarded. -/
theorem analyzeDivisor_pos_aux (ws1 ws2 : List (List Char))
    (hp : ws2.Pairwise (fun a b => equalFold a b = false))
    (hne : ws1 ≠ [] ∨ ws2 ≠ []) :
    0 < (ws1.length : Int) + (ws2.length : Int) - (commonWords ws1 ws2 : Int) := by
  have hb : commonWords ws1 ws2 ≤ ws1.length := commonWords_le_length_left ws1 ws2 hp
  by_cases h2 : ws2 = []
  · subst h2
    have hc : commonWords ws1 [] = 0 := commonWords_nil_right ws1
    have h1 : ws1 ≠ [] := by tauto
    have hl : 0 < ws1.length := List.length_pos.mpr h1
    simp only [List.length_nil]
    omega
  · have hl : 0 < ws2.length := List.length_pos.mpr h2
    omega

theorem analyzeDivisor_amended (s1 s2 : String)
    (hd : (goFields s1).Pairwise (fun a b => equalFold a b = false)
        ∨ (goFields s2).Pairwise (fun a b => equalFold a b = false)) :
    (goFields s1 ≠ [] ∨ goFields s2 ≠ [] → 0 < analyzeDivisor s1 s2)
    ∧ (goFields s1 = [] → goFields s2 = [] → analyzeDivisor s1 s2 = 0) := by
  constructor
  · intro hne
    cases hd with
    | inl hp1 =>
      have haux := analyzeDivisor_pos_aux (goFields s2) (goFields s1) hp1 hne.symm
      unfold analyzeDivisor
      rw [commonWords_comm]
      omega
    | inr hp2 =>
      have haux := analyzeDivisor_pos_aux (goFields s1) (goFields s2) hp2 hne
      unfold analyzeDivisor
      omega
  · intro h1 h2
    simp [analyzeDivisor, h1, h2, commonWords]

theorem analyzeDivisor_amended_witness :
    0 < analyzeDivisor "a b" "b c" :=
  (analyzeDivisor_amended "a b" "b c" (Or.inl (by decide))).1 (Or.inl (by decide))

end DupRadar
